import Mathlib

/-!
Verification development for the spiral-gated-chat adaptive control loop.

Shallow embedding of the core algorithms of the repository:
* lib/gating.ts        — hysteresis, EMA baselines, stagnation / pulse detection
* lib/sessionStore.ts  — per-turn POST handler: state resolution, META-cap
                         governor, gradient budget mapper, inline EMA updates
* components/ChatApp.tsx — salience fragment memory (decay / upsert / prune)

Numeric modelling: JavaScript floating-point arithmetic is embedded as exact
arithmetic; purely algebraic computations live in ℚ, while functions that use
transcendental operations (exp, log, sqrt, fractional powers) live in ℝ.
-/

/-- clamp(a, b, x) = Math.max(a, Math.min(b, x)), as in sessionStore.ts and
ChatApp.tsx. -/
def clamp {α : Type} [LinearOrder α] (a b x : α) : α :=
  max a (min b x)

/-- clamp01(x) = clamp(0, 1, x), as in gating.ts / sessionStore.ts. -/
def clamp01 {α : Type} [LinearOrder α] [Zero α] [One α] (x : α) : α :=
  clamp 0 1 x

/-- lerp(a, b, t) = a + (b - a) * t, from sessionStore.ts / ChatApp.tsx. -/
def lerp {α : Type} [Ring α] (a b t : α) : α :=
  a + (b - a) * t

/-- smoothstep(edge0, edge1, x): cubic Hermite ease from sessionStore.ts:
t = clamp01((x - edge0)/(edge1 - edge0)); t*t*(3 - 2*t). -/
def smoothstep {α : Type} [LinearOrderedField α] (edge0 edge1 x : α) : α :=
  let t := clamp01 ((x - edge0) / (edge1 - edge0))
  t * t * (3 - 2 * t)

/-- powEase(x, gamma) = Math.pow(clamp01(x), gamma) from sessionStore.ts,
with Math.pow embedded as the real power. -/
noncomputable def powEase (x gamma : ℝ) : ℝ :=
  (clamp01 x) ^ gamma

/-- EPS = 1e-8 from gating.ts. -/
def EPS : ℚ := 1e-8

/-- ETA = 0.06, the baseline update speed constant from the POST handler in
sessionStore.ts. -/
def ETA : ℚ := 0.06

/-- RunningStats {mean, var}: EMA baseline for one signal (lib/types.ts). -/
structure RunningStats where
  mean : ℚ
  var : ℚ
deriving DecidableEq, Repr

/-- GateState from lib/types.ts (per-session gating state). -/
structure GateState where
  S : RunningStats
  H : RunningStats
  last_state : ℚ
  meta_cap_stage : ℕ
  meta_cap_last_change_turn : ℤ
  last_dims : List String
  last_focus : List String
  last_states : List ℚ
  last_pulse_turn : ℤ
deriving DecidableEq, Repr

/-- createInitialGateState() from gating.ts. -/
def createInitialGateState : GateState :=
  ⟨⟨2, 1⟩, ⟨1, 1⟩, 0.3, 0, -999, [], [], [], -999⟩

/-- emaUpdate(stats, x, eta) from gating.ts: exponential moving mean/variance,
variance floored at EPS via Math.max. -/
def emaUpdate (stats : RunningStats) (x eta : ℚ) : RunningStats :=
  let mean := (1 - eta) * stats.mean + eta * x
  let diff := x - mean
  ⟨mean, max ((1 - eta) * stats.var + eta * diff * diff) EPS⟩

/-- The inline per-turn baseline update from the POST handler in
sessionStore.ts (lines 332-345): mean and variance EMA at rate ETA, with NO
floor applied to the variance (unlike emaUpdate in gating.ts). -/
def postBaselineUpdate (stats : RunningStats) (x : ℚ) : RunningStats :=
  let mean := (1 - ETA) * stats.mean + ETA * x
  let d := x - mean
  ⟨mean, (1 - ETA) * stats.var + ETA * d * d⟩

/-- hysteresisUpdate(prev, raw, up, down, inertia) from gating.ts:
target = raw when raw >= up or raw <= down, else prev;
result = clamp01(inertia * prev + (1 - inertia) * target). -/
def hysteresisUpdate {α : Type} [LinearOrderedField α]
    (prev raw up down inertia : α) : α :=
  let target := if raw ≥ up ∨ raw ≤ down then raw else prev
  clamp01 (inertia * prev + (1 - inertia) * target)

/-- variance(xs) from gating.ts: 0 when xs has at most one element, else the
sample variance with divisor (length - 1). -/
def variance (xs : List ℚ) : ℚ :=
  if xs.length ≤ 1 then 0
  else
    let mean := xs.sum / (xs.length : ℚ)
    (xs.map (fun x => (x - mean) ^ 2)).sum / ((xs.length : ℚ) - 1)

/-- lowDiversity(xs, uniqMax) from gating.ts: true when the set of distinct
elements of xs has size at most uniqMax. -/
def lowDiversity {α : Type} [DecidableEq α] (xs : List α) (uniqMax : ℕ) : Bool :=
  xs.toFinset.card ≤ uniqMax

/-- JS arr.slice(-n): the last n elements of the list (all of them when the
list is shorter). Also the result of the push/while-shift trimming loops. -/
def lastN {α : Type} (l : List α) (n : ℕ) : List α :=
  l.drop (l.length - n)

/-- shouldExplorationPulse(gs) from gating.ts, with the early returns of the
source rendered as nested conditionals. -/
def shouldExplorationPulse (gs : GateState) : Bool :=
  if gs.last_states.length < 8 then false
  else if gs.last_dims.length < 8 then false
  else if gs.last_focus.length < 8 then false
  else
    decide (variance (lastN gs.last_states 8) < 0.002)
      && lowDiversity (lastN gs.last_dims 8) 1
      && lowDiversity (lastN gs.last_focus 8) 2

/-- JS truthiness of a (string | null) value: truthy iff non-null and
non-empty. -/
def jsTruthy (s : Option String) : Bool :=
  match s with
  | none => false
  | some str => str ≠ ""

/-- Push a (string | null) value onto a list when it is truthy, as in
`if (dim) gs.last_dims.push(dim)` in updateStagnationBuffers. -/
def pushIfTruthy (l : List String) (s : Option String) : List String :=
  match s with
  | none => l
  | some str => if str = "" then l else l ++ [str]

/-- updateStagnationBuffers(gs, dim, focus, state, maxLen) from gating.ts:
push dim/focus when truthy, always push state, then shift each buffer from
the front until its length is at most maxLen (embedded as List.drop). -/
def updateStagnationBuffers (gs : GateState) (dim focus : Option String)
    (state : ℚ) (maxLen : ℕ) : GateState :=
  { gs with
    last_dims := lastN (pushIfTruthy gs.last_dims dim) maxLen
    last_focus := lastN (pushIfTruthy gs.last_focus focus) maxLen
    last_states := lastN (gs.last_states ++ [state]) maxLen }

/-- metaCapValue(stage) from sessionStore.ts: stage 0 caps at 0.55, stage 1
at 0.65, any later stage is uncapped (null). -/
def metaCapValue (stage : ℕ) : Option ℚ :=
  if stage = 0 then some 0.55
  else if stage = 1 then some 0.65
  else none

/-- recentMetaShare(gs, window) from sessionStore.ts: fraction of "META"
labels among the last `window` entries of last_dims; null when fewer than
`window` entries exist. -/
def recentMetaShare (gs : GateState) (window : ℕ) : Option ℚ :=
  let dims := lastN gs.last_dims window
  if dims.length < window then none
  else some (((dims.filter (fun d => d = "META")).length : ℚ) / (dims.length : ℚ))

/-- maybeRelaxMetaCapStage(gs, turn) from sessionStore.ts. Returns the updated
gate state together with the {changed, metaShare} result record. -/
def maybeRelaxMetaCapStage (gs : GateState) (turn : ℤ) :
    GateState × Bool × Option ℚ :=
  match recentMetaShare gs 12 with
  | none => (gs, false, none)
  | some share =>
    let minInterval : ℤ := if gs.meta_cap_stage = 1 then 18 else 12
    if turn - gs.meta_cap_last_change_turn < minInterval then (gs, false, some share)
    else if gs.meta_cap_stage = 0 ∧ share ≤ 0.25 then
      ({ gs with meta_cap_stage := 1, meta_cap_last_change_turn := turn }, true, some share)
    else if gs.meta_cap_stage = 1 ∧ share ≤ 0.17 then
      ({ gs with meta_cap_stage := 2, meta_cap_last_change_turn := turn }, true, some share)
    else (gs, false, some share)

/-- The guard in the POST handler (sessionStore.ts lines 363-379) deciding
whether an exploration pulse attempt (the request for alternative probe
candidates) is made this turn: stagnation detected, cooldown of 6 turns
elapsed, the repeating dimension (last entry of last_dims) is not RISK, and
the previous state is below 0.6. -/
def postPulseGuard (gs : GateState) (turn : ℤ) : Bool :=
  shouldExplorationPulse gs
    && decide (turn - gs.last_pulse_turn ≥ 6)
    && decide (gs.last_dims.getLast? ≠ some "RISK")
    && decide (gs.last_state < 0.6)

/-- MemoryFragment from lib/types.ts. -/
structure MemoryFragment where
  id : String
  key : String
  turn : ℤ
  dim : Option String
  focus : Option String
  text : String
  salience : ℚ
  last_used_turn : ℤ
deriving DecidableEq, Repr

/-- The incoming argument of upsertFragment: a MemoryFragment without id and
last_used_turn (Omit<MemoryFragment, "id" | "last_used_turn">). -/
structure IncomingFragment where
  key : String
  turn : ℤ
  dim : Option String
  focus : Option String
  text : String
  salience : ℚ
deriving DecidableEq, Repr

/-- The merge branch of upsertFragment (ChatApp.tsx): overwrite
text/dim/focus/turn and set salience to clamp(0, 1.2, max(old, new) + 0.08). -/
def mergeFragment (f : MemoryFragment) (incoming : IncomingFragment) :
    MemoryFragment :=
  { f with
    text := incoming.text
    dim := incoming.dim
    focus := incoming.focus
    turn := incoming.turn
    salience := clamp 0 1.2 (max f.salience incoming.salience + 0.08) }

/-- Recursion underlying upsertFragment: merge into the first fragment whose
key matches (frags.find in the source mutates that fragment in place),
otherwise push a fresh fragment at the end. The Bool is the `added` flag of
the result record. -/
def upsertGo (incoming : IncomingFragment) (freshId : String) :
    List MemoryFragment → List MemoryFragment × Bool
  | [] =>
    ([⟨freshId, incoming.key, incoming.turn, incoming.dim, incoming.focus,
       incoming.text, incoming.salience, -999⟩], true)
  | f :: rest =>
    if f.key = incoming.key then (mergeFragment f incoming :: rest, false)
    else
      let p := upsertGo incoming freshId rest
      (f :: p.1, p.2)

/-- upsertFragment(frags, incoming, turn) from ChatApp.tsx. The random
makeFragmentId(turn) of the source is modelled by the explicit freshId
argument (it is only a display identifier). -/
def upsertFragment (frags : List MemoryFragment) (incoming : IncomingFragment)
    (freshId : String) : List MemoryFragment × Bool :=
  upsertGo incoming freshId frags

/-- pruneFragments(frags, turn, maxKeep) from ChatApp.tsx: drop fragments with
salience < 0.06 and age > 8, sort descending by salience, keep the first
maxKeep. -/
def pruneFragments (frags : List MemoryFragment) (turn : ℤ) (maxKeep : ℕ) :
    List MemoryFragment :=
  ((frags.filter (fun f => !(decide (f.salience < 0.06) && decide (turn - f.turn > 8)))).mergeSort
      (fun a b => decide (b.salience ≤ a.salience))).take maxKeep

/-- TopTokenLogprob from lib/types.ts (bytes field omitted: never read). -/
structure TopTokenLogprob where
  token : String
  logprob : ℝ

/-- TokenLogprob from lib/types.ts (bytes field omitted: never read). -/
structure TokenLogprob where
  token : String
  logprob : ℝ
  top_logprobs : Option (List TopTokenLogprob)

/-- The per-token entropy loop body of approxEntropy (gating.ts): probabilities
p = exp(logprob); residual r = max(0, 1 - sum p); H starts at 0, subtracts
p * log(p + EPS) for each p > 0, then subtracts r * log(r + EPS) when r > 0. -/
noncomputable def tokenEntropy (top : List TopTokenLogprob) : ℝ :=
  let ps := top.map (fun x => Real.exp x.logprob)
  let sumP := ps.sum
  let r := max 0 (1 - sumP)
  let H := ps.foldl (fun acc p => if 0 < p then acc - p * Real.log (p + (EPS : ℝ)) else acc) 0
  if 0 < r then H - r * Real.log (r + (EPS : ℝ)) else H

/-- approxEntropy(tokens) from gating.ts: per-token entropies for tokens whose
top_logprobs list is present and non-empty; null when there is none, else the
average. -/
noncomputable def approxEntropy (tokens : List TokenLogprob) : Option ℝ :=
  let Hs := tokens.filterMap (fun t =>
    t.top_logprobs.bind (fun top =>
      if top.isEmpty then none else some (tokenEntropy top)))
  if Hs.isEmpty then none else some (Hs.sum / (Hs.length : ℝ))

/-- Per-token entropy as the claim states it (no epsilon inside the
logarithms): H = -Σ p_i·ln(p_i) - r·ln(r). -/
noncomputable def tokenEntropySpec (top : List TopTokenLogprob) : ℝ :=
  let ps := top.map (fun x => Real.exp x.logprob)
  let r := max 0 (1 - ps.sum)
  let negSum : ℝ := -(ps.map (fun p => p * Real.log p)).sum
  negSum - r * Real.log r

/-- The entropy estimator exactly as the claim describes it: average of
tokenEntropySpec over tokens that carry alternatives, None when no token
does. -/
noncomputable def approxEntropySpec (tokens : List TokenLogprob) : Option ℝ :=
  let Hs := tokens.filterMap (fun t =>
    t.top_logprobs.bind (fun top =>
      if top.isEmpty then none else some (tokenEntropySpec top)))
  if Hs.isEmpty then none else some (Hs.sum / (Hs.length : ℝ))

/-- Per-token entropy in closed form with the epsilon the code actually uses:
H = -Σ p_i·ln(p_i + 1e-8) - r·ln(r + 1e-8) (r-term only when r > 0). -/
noncomputable def tokenEntropyAmended (top : List TopTokenLogprob) : ℝ :=
  let ps := top.map (fun x => Real.exp x.logprob)
  let r := max 0 (1 - ps.sum)
  let negSum : ℝ := -(ps.map (fun p => p * Real.log (p + (EPS : ℝ)))).sum
  negSum - (if 0 < r then r * Real.log (r + (EPS : ℝ)) else 0)

/-- The entropy estimator as the amended claim states it: average of
tokenEntropyAmended over tokens that carry alternatives, None when no token
does. -/
noncomputable def approxEntropyAmended (tokens : List TokenLogprob) : Option ℝ :=
  let Hs := tokens.filterMap (fun t =>
    t.top_logprobs.bind (fun top =>
      if top.isEmpty then none else some (tokenEntropyAmended top)))
  if Hs.isEmpty then none else some (Hs.sum / (Hs.length : ℝ))

/-- Blended raw state from the POST handler (sessionStore.ts lines 322-358):
if both metrics are missing the previous state is kept; otherwise z-scores
(missing one treated as 0) are blended 0.7/0.3 and squashed by the logistic
with tau = 1.2. -/
noncomputable def turnRawState (gs : GateState) (S H : Option ℝ) : ℝ :=
  match S, H with
  | none, none => ((gs.last_state : ℚ) : ℝ)
  | _, _ =>
    let zS : ℝ := match S with
      | none => 0
      | some s => (s - ((gs.S.mean : ℚ) : ℝ)) / Real.sqrt (((gs.S.var : ℚ) : ℝ) + 1e-8)
    let zH : ℝ := match H with
      | none => 0
      | some h => (h - ((gs.H.mean : ℚ) : ℝ)) / Real.sqrt (((gs.H.var : ℚ) : ℝ) + 1e-8)
    let score := 0.7 * zS + 0.3 * zH
    1 / (1 + Real.exp (-(score / 1.2)))

/-- applyDimWeight(rawState, dim, gs) from sessionStore.ts: RISK gets a
state-dependent additive boost lerp(0.22, 0.08, clamp01(s)) clamped to [0,1];
META is capped at metaCapValue(stage) when a cap is active. -/
noncomputable def applyDimWeight (rawState : ℝ) (dim : Option String)
    (gs : GateState) : ℝ :=
  let s1 :=
    if dim = some "RISK" then
      clamp01 (rawState + lerp 0.22 0.08 (clamp01 rawState))
    else rawState
  if dim = some "META" then
    match metaCapValue gs.meta_cap_stage with
    | some cap => min s1 ((cap : ℚ) : ℝ)
    | none => s1
  else s1

/-- The state resolution of one turn (sessionStore.ts lines 322-453), as a
function of the session gate state, the optional surprisal/entropy metrics and
the effective attention dimension: blended raw state, dimension weighting,
then hysteresis with band 0.48/0.62 and inertia 0.6 against the previous
state. -/
noncomputable def turnFinalState (gs : GateState) (S H : Option ℝ)
    (dim : Option String) : ℝ :=
  hysteresisUpdate ((gs.last_state : ℚ) : ℝ)
    (applyDimWeight (turnRawState gs S H) dim gs) 0.62 0.48 0.6

/-- ctx_keep_msgs = clamp(4, 18, round(lerp(4, 18, powEase(state, 1.25)))),
from the gradient budget mapper in sessionStore.ts. -/
noncomputable def ctx_keep_msgs (state : ℝ) : ℤ :=
  clamp 4 18 (round (lerp 4 18 (powEase state 1.25)))

/-- summary_chars = round(lerp(0, 220, smoothstep(0.22, 0.62, state))). -/
noncomputable def summary_chars (state : ℝ) : ℤ :=
  round (lerp 0 220 (smoothstep 0.22 0.62 state))

/-- attn_items = clamp(0, 10, round(lerp(0, 10, smoothstep(0.35, 0.85,
state)))). -/
noncomputable def attn_items (state : ℝ) : ℤ :=
  clamp 0 10 (round (lerp 0 10 (smoothstep 0.35 0.85 state)))

/-- The initial frag_items computation: clamp(0, 10, round(lerp(0, 10,
smoothstep(0.20, 0.86, state)))). -/
noncomputable def frag_items_base (state : ℝ) : ℤ :=
  clamp 0 10 (round (lerp 0 10 (smoothstep 0.20 0.86 state)))

/-- frag_items including the forcing rule: if the computed value is 0 but the
top fragment salience exceeds 0.9, keep 1 fragment anyway. -/
noncomputable def frag_items (state topSalience : ℝ) : ℤ :=
  if frag_items_base state = 0 ∧ topSalience > 0.9 then 1 else frag_items_base state

/-- summary_update_interval = clamp(1, 18, round(lerp(18, 1, powEase(state,
1.4)))). -/
noncomputable def summary_update_interval (state : ℝ) : ℤ :=
  clamp 1 18 (round (lerp 18 1 (powEase state 1.4)))

/-- summary_update_max_tokens = clamp(20, 120, round(lerp(25, 90,
powEase(state, 1.2)))). -/
noncomputable def summary_update_max_tokens (state : ℝ) : ℤ :=
  clamp 20 120 (round (lerp 25 90 (powEase state 1.2)))

/-- max_output_tokens = round(lerp(60, 520, state)) (before the
exploration-pulse floor, which only raises it to at least 120). -/
noncomputable def max_output_tokens (state : ℝ) : ℤ :=
  round (lerp 60 520 state)

/-- temperature = clamp(0, 1.2, lerp(0.05, 0.7, state)). -/
noncomputable def temperature (state : ℝ) : ℝ :=
  clamp 0 1.2 (lerp 0.05 0.7 state)

/-- The hysteresis step exactly as the claim words it: target = prev whenever
raw falls inside the closed band [0.48, 0.62], raw otherwise; result =
clamp01(0.6·prev + 0.4·target). -/
def hysteresisClaim (prev raw : ℚ) : ℚ :=
  clamp01 (0.6 * prev + 0.4 * (if 0.48 ≤ raw ∧ raw ≤ 0.62 then prev else raw))

lemma le_clamp {α : Type} [LinearOrder α] (a b x : α) : a ≤ clamp a b x :=
  le_max_left a (min b x)

lemma clamp_le {α : Type} [LinearOrder α] {a b : α} (h : a ≤ b) (x : α) :
    clamp a b x ≤ b :=
  max_le h (min_le_left b x)

lemma clamp_mono {α : Type} [LinearOrder α] (a b : α) {x y : α} (h : x ≤ y) :
    clamp a b x ≤ clamp a b y :=
  max_le_max le_rfl (min_le_min le_rfl h)

lemma clamp_eq_self {α : Type} [LinearOrder α] {a b x : α} (h1 : a ≤ x)
    (h2 : x ≤ b) : clamp a b x = x := by
  unfold clamp
  rw [min_eq_right h2, max_eq_right h1]

lemma clamp01_nonneg {α : Type} [LinearOrderedField α] (x : α) : 0 ≤ clamp01 x :=
  le_clamp 0 1 x

lemma clamp01_le_one {α : Type} [LinearOrderedField α] (x : α) : clamp01 x ≤ 1 :=
  clamp_le zero_le_one x

lemma clamp01_mono {α : Type} [LinearOrderedField α] {x y : α} (h : x ≤ y) :
    clamp01 x ≤ clamp01 y :=
  clamp_mono 0 1 h

lemma clamp01_eq_self {α : Type} [LinearOrderedField α] {x : α} (h1 : 0 ≤ x)
    (h2 : x ≤ 1) : clamp01 x = x :=
  clamp_eq_self h1 h2

lemma lerp_mono {a b s t : ℝ} (hab : a ≤ b) (hst : s ≤ t) :
    lerp a b s ≤ lerp a b t := by
  unfold lerp
  nlinarith

lemma lerp_anti {a b s t : ℝ} (hab : b ≤ a) (hst : s ≤ t) :
    lerp a b t ≤ lerp a b s := by
  unfold lerp
  nlinarith

lemma lerp_mem {a b u : ℝ} (hab : a ≤ b) (h0 : 0 ≤ u) (h1 : u ≤ 1) :
    a ≤ lerp a b u ∧ lerp a b u ≤ b := by
  unfold lerp
  constructor <;> nlinarith

lemma round_le_round {x y : ℝ} (h : x ≤ y) : round x ≤ round y := by
  rw [round_eq, round_eq]
  exact Int.floor_mono (by linarith)

lemma round_mem {lo hi : ℤ} {x : ℝ} (h1 : (lo : ℝ) ≤ x) (h2 : x ≤ (hi : ℝ)) :
    lo ≤ round x ∧ round x ≤ hi := by
  constructor
  · have := round_le_round h1
    rwa [round_intCast] at this
  · have := round_le_round h2
    rwa [round_intCast] at this

lemma cubic_nonneg {t : ℝ} (h0 : 0 ≤ t) (h1 : t ≤ 1) : 0 ≤ t * t * (3 - 2 * t) := by
  nlinarith

lemma cubic_le_one {t : ℝ} (h0 : 0 ≤ t) (h1 : t ≤ 1) : t * t * (3 - 2 * t) ≤ 1 := by
  nlinarith [sq_nonneg (1 - t)]

lemma cubic_mono {a b : ℝ} (h0 : 0 ≤ a) (hab : a ≤ b) (h1 : b ≤ 1) :
    a * a * (3 - 2 * a) ≤ b * b * (3 - 2 * b) := by
  have hb0 : 0 ≤ b := le_trans h0 hab
  have ha1 : a ≤ 1 := le_trans hab h1
  have hba : 0 ≤ b - a := sub_nonneg.2 hab
  nlinarith [mul_nonneg hba (mul_nonneg h0 (sub_nonneg.2 ha1)),
    mul_nonneg hba (mul_nonneg hb0 (sub_nonneg.2 h1)),
    mul_nonneg hba (mul_nonneg h0 (sub_nonneg.2 h1)),
    mul_nonneg hba (mul_nonneg hb0 (sub_nonneg.2 ha1))]

lemma smoothstep_nonneg (e0 e1 x : ℝ) : 0 ≤ smoothstep e0 e1 x := by
  unfold smoothstep
  exact cubic_nonneg (clamp01_nonneg _) (clamp01_le_one _)

lemma smoothstep_le_one (e0 e1 x : ℝ) : smoothstep e0 e1 x ≤ 1 := by
  unfold smoothstep
  exact cubic_le_one (clamp01_nonneg _) (clamp01_le_one _)

lemma smoothstep_mono {e0 e1 x y : ℝ} (he : e0 < e1) (hxy : x ≤ y) :
    smoothstep e0 e1 x ≤ smoothstep e0 e1 y := by
  unfold smoothstep
  have ht : clamp01 ((x - e0) / (e1 - e0)) ≤ clamp01 ((y - e0) / (e1 - e0)) := by
    apply clamp01_mono
    apply div_le_div_of_nonneg_right (by linarith) (by linarith)
  exact cubic_mono (clamp01_nonneg _) ht (clamp01_le_one _)

lemma powEase_nonneg (x gamma : ℝ) : 0 ≤ powEase x gamma :=
  Real.rpow_nonneg (clamp01_nonneg x) gamma

lemma powEase_le_one (x : ℝ) {gamma : ℝ} (hg : 0 ≤ gamma) : powEase x gamma ≤ 1 :=
  Real.rpow_le_one (clamp01_nonneg x) (clamp01_le_one x) hg

lemma powEase_mono {x y gamma : ℝ} (hg : 0 ≤ gamma) (hxy : x ≤ y) :
    powEase x gamma ≤ powEase y gamma :=
  Real.rpow_le_rpow (clamp01_nonneg x) (clamp01_mono hxy) hg

/-- C2 counterexample: at prev = 0 and raw = 0.48 (the lower edge of the
band), the code treats raw as outside the sticky band (raw <= down ⇒ target
= raw) and returns 0.192, while the claim's closed band [0.48, 0.62] makes
the target prev and predicts 0. -/
theorem C2_counterexample :
    hysteresisUpdate (0 : ℚ) 0.48 0.62 0.48 0.6 ≠ hysteresisClaim 0 0.48 := by
  have h1 : hysteresisUpdate (0 : ℚ) 0.48 0.62 0.48 0.6 = 0.192 := by
    unfold hysteresisUpdate
    rw [if_pos (Or.inr le_rfl)]
    rw [clamp01_eq_self (by norm_num) (by norm_num)]
    norm_num
  have h2 : hysteresisClaim (0 : ℚ) 0.48 = 0 := by
    unfold hysteresisClaim
    rw [if_pos ⟨le_rfl, by norm_num⟩]
    have h3 : (0.6 : ℚ) * 0 + 0.4 * 0 = 0 := by norm_num
    rw [h3, clamp01_eq_self le_rfl zero_le_one]
  rw [h1, h2]
  norm_num

/-- C2 (amended): for every previous state prev and every weighted raw value
raw, hysteresisUpdate with band 0.48/0.62 and inertia 0.6 returns
clamp01(0.6·prev + 0.4·target) where target = prev exactly when raw lies in
the OPEN band (0.48, 0.62) and target = raw otherwise (raw ≤ 0.48 or
raw ≥ 0.62); the returned state always lies in [0, 1]. -/
theorem C2_hysteresis :
    ∀ prev raw : ℚ,
      hysteresisUpdate prev raw 0.62 0.48 0.6 =
        clamp01 (0.6 * prev + 0.4 * (if 0.48 < raw ∧ raw < 0.62 then prev else raw)) ∧
      0 ≤ hysteresisUpdate prev raw 0.62 0.48 0.6 ∧
      hysteresisUpdate prev raw 0.62 0.48 0.6 ≤ 1 := by
  intro prev raw
  refine ⟨?_, ?_, ?_⟩
  · unfold hysteresisUpdate
    by_cases h : raw ≥ (0.62 : ℚ) ∨ raw ≤ 0.48
    · rw [if_pos h, if_neg]
      · ring_nf
      · rcases h with h | h
        · exact fun hc => absurd hc.2 (not_lt.2 h)
        · exact fun hc => absurd hc.1 (not_lt.2 h)
    · rw [if_neg h, if_pos]
      · ring_nf
      · push_neg at h
        exact ⟨h.2, h.1⟩
  · simp only [hysteresisUpdate]
    exact clamp01_nonneg _
  · simp only [hysteresisUpdate]
    exact clamp01_le_one _

/-- C4: the inline per-turn baseline update in the POST handler applies no
variance floor: starting from variance exactly 1e-8 and mean 0, observing
x = 0 yields variance 0.94e-8 < 1e-8. The emaUpdate helper in gating.ts, by
contrast, does enforce the floor on the same input. -/
theorem C4_variance_floor_violation :
    (postBaselineUpdate ⟨0, EPS⟩ 0).var < EPS ∧
    EPS ≤ (emaUpdate ⟨0, EPS⟩ 0 ETA).var := by
  constructor
  · simp only [postBaselineUpdate]
    norm_num [ETA, EPS]
  · simp only [emaUpdate]
    exact le_max_right _ _

lemma relaxStageShape (gs : GateState) (turn : ℤ) :
    (maybeRelaxMetaCapStage gs turn).1.meta_cap_stage = gs.meta_cap_stage ∨
    (gs.meta_cap_stage = 0 ∧ (maybeRelaxMetaCapStage gs turn).1.meta_cap_stage = 1) ∨
    (gs.meta_cap_stage = 1 ∧ (maybeRelaxMetaCapStage gs turn).1.meta_cap_stage = 2) := by
  unfold maybeRelaxMetaCapStage
  split
  · left; rfl
  · rename_i share heq
    dsimp only
    by_cases hA : turn - gs.meta_cap_last_change_turn < (if gs.meta_cap_stage = 1 then (18 : ℤ) else 12)
    · rw [if_pos hA]; left; rfl
    · rw [if_neg hA]
      by_cases hB : gs.meta_cap_stage = 0 ∧ share ≤ (0.25 : ℚ)
      · rw [if_pos hB]; exact Or.inr (Or.inl ⟨hB.1, rfl⟩)
      · rw [if_neg hB]
        by_cases hC : gs.meta_cap_stage = 1 ∧ share ≤ (0.17 : ℚ)
        · rw [if_pos hC]; exact Or.inr (Or.inr ⟨hC.1, rfl⟩)
        · rw [if_neg hC]; left; rfl

lemma relaxStage_le (gs : GateState) (turn : ℤ) :
    gs.meta_cap_stage ≤ (maybeRelaxMetaCapStage gs turn).1.meta_cap_stage := by
  rcases relaxStageShape gs turn with h | ⟨h0, h1⟩ | ⟨h0, h1⟩ <;> omega

/-- C5: metaCapValue maps stages 0, 1, 2 to caps 0.55, 0.65 and no cap (null);
one application of the governor either keeps the stage or performs exactly the
transition 0→1 or 1→2; and over any sequence of turns (each turn updating the
stagnation buffers and then running the governor, as the POST handler does)
meta_cap_stage never decreases. -/
theorem C5_metaCapStage_monotone :
    (metaCapValue 0 = some 0.55 ∧ metaCapValue 1 = some 0.65 ∧ metaCapValue 2 = none) ∧
    (∀ gs turn,
      (maybeRelaxMetaCapStage gs turn).1.meta_cap_stage = gs.meta_cap_stage ∨
      (gs.meta_cap_stage = 0 ∧ (maybeRelaxMetaCapStage gs turn).1.meta_cap_stage = 1) ∨
      (gs.meta_cap_stage = 1 ∧ (maybeRelaxMetaCapStage gs turn).1.meta_cap_stage = 2)) ∧
    (∀ gs (steps : List (Option String × Option String × ℚ × ℤ)),
      gs.meta_cap_stage ≤
        (steps.foldl
          (fun g i =>
            (maybeRelaxMetaCapStage (updateStagnationBuffers g i.1 i.2.1 i.2.2.1 12) i.2.2.2).1)
          gs).meta_cap_stage) := by
  refine ⟨⟨rfl, rfl, rfl⟩, relaxStageShape, ?_⟩
  intro gs steps
  induction steps generalizing gs with
  | nil => exact le_rfl
  | cons i rest ih =>
    simp only [List.foldl_cons]
    refine le_trans ?_ (ih _)
    exact relaxStage_le (updateStagnationBuffers gs i.1 i.2.1 i.2.2.1 12) i.2.2.2

lemma lastN_length_le {α : Type} (l : List α) (n : ℕ) : (lastN l n).length ≤ n := by
  simp only [lastN, List.length_drop]
  omega

lemma lastN_concat_getLast {α : Type} (l : List α) (a : α) {n : ℕ} (hn : 0 < n) :
    (lastN (l ++ [a]) n).getLast? = some a := by
  unfold lastN
  have hk : (l ++ [a]).length - n ≤ l.length := by
    simp only [List.length_append, List.length_cons, List.length_nil]
    omega
  rw [List.drop_append_of_le_length hk]
  exact List.getLast?_concat _

/-- C10: updateStagnationBuffers keeps each of last_dims, last_focus and
last_states at length at most 12; it always appends the new state (the new
last element of last_states is the given state); with a null dimension
(respectively focus) it appends nothing to last_dims (respectively
last_focus) — the buffer stays a suffix of the old one; and the buffers can
end up with different lengths (witnessed on a fresh session with a null
dimension and a present focus). -/
theorem C10_updateStagnationBuffers :
    (∀ gs dim focus (st : ℚ),
      (updateStagnationBuffers gs dim focus st 12).last_dims.length ≤ 12 ∧
      (updateStagnationBuffers gs dim focus st 12).last_focus.length ≤ 12 ∧
      (updateStagnationBuffers gs dim focus st 12).last_states.length ≤ 12 ∧
      (updateStagnationBuffers gs dim focus st 12).last_states.getLast? = some st) ∧
    (∀ gs focus (st : ℚ),
      List.IsSuffix ((updateStagnationBuffers gs none focus st 12).last_dims) gs.last_dims) ∧
    (∀ gs dim (st : ℚ),
      List.IsSuffix ((updateStagnationBuffers gs dim none st 12).last_focus) gs.last_focus) ∧
    (updateStagnationBuffers createInitialGateState none (some "x") 0.5 12).last_dims.length ≠
      (updateStagnationBuffers createInitialGateState none (some "x") 0.5 12).last_focus.length := by
  refine ⟨?_, ?_, ?_, ?_⟩
  · intro gs dim focus st
    exact ⟨lastN_length_le _ _, lastN_length_le _ _, lastN_length_le _ _,
      lastN_concat_getLast _ _ (by norm_num)⟩
  · intro gs focus st
    exact List.drop_suffix _ _
  · intro gs dim st
    exact List.drop_suffix _ _
  · simp [updateStagnationBuffers, lastN, pushIfTruthy, createInitialGateState]

/-- The exploration-pulse trigger condition exactly as the claim lists it:
all stagnation buffers hold at least 8 entries, the last 8 states have
variance below 0.002, the last 8 dimension labels have at most 1 distinct
value, the last 8 focus strings have at most 2 distinct values, at least 6
turns have passed since the last pulse, the repeating dimension is not RISK,
and the previous state is below 0.6. -/
def pulseClaimCond (gs : GateState) (turn : ℤ) : Prop :=
  8 ≤ gs.last_states.length ∧ 8 ≤ gs.last_dims.length ∧ 8 ≤ gs.last_focus.length ∧
  variance (lastN gs.last_states 8) < 0.002 ∧
  (lastN gs.last_dims 8).toFinset.card ≤ 1 ∧
  (lastN gs.last_focus 8).toFinset.card ≤ 2 ∧
  6 ≤ turn - gs.last_pulse_turn ∧
  gs.last_dims.getLast? ≠ some "RISK" ∧
  gs.last_state < 0.6

lemma shouldExplorationPulse_iff (gs : GateState) :
    shouldExplorationPulse gs = true ↔
      8 ≤ gs.last_states.length ∧ 8 ≤ gs.last_dims.length ∧ 8 ≤ gs.last_focus.length ∧
      variance (lastN gs.last_states 8) < 0.002 ∧
      (lastN gs.last_dims 8).toFinset.card ≤ 1 ∧
      (lastN gs.last_focus 8).toFinset.card ≤ 2 := by
  unfold shouldExplorationPulse lowDiversity
  by_cases h1 : gs.last_states.length < 8
  · rw [if_pos h1]
    simp only [Bool.false_eq_true, false_iff]
    rintro ⟨h8, -⟩
    omega
  · rw [if_neg h1]
    by_cases h2 : gs.last_dims.length < 8
    · rw [if_pos h2]
      simp only [Bool.false_eq_true, false_iff]
      rintro ⟨-, h8, -⟩
      omega
    · rw [if_neg h2]
      by_cases h3 : gs.last_focus.length < 8
      · rw [if_pos h3]
        simp only [Bool.false_eq_true, false_iff]
        rintro ⟨-, -, h8, -⟩
        omega
      · rw [if_neg h3]
        simp only [Bool.and_eq_true, decide_eq_true_eq]
        constructor
        · rintro ⟨⟨hv, hd⟩, hf⟩
          exact ⟨by omega, by omega, by omega, hv, hd, hf⟩
        · rintro ⟨-, -, -, hv, hd, hf⟩
          exact ⟨⟨hv, hd⟩, hf⟩

/-- C6: the POST handler requests alternative probe candidates exactly when
all of the claim's conditions hold: all three stagnation buffers have at
least 8 entries, the last 8 states are flat (variance < 0.002), the last 8
dimension labels have at most 1 distinct value, the last 8 focus strings at
most 2, at least 6 turns since the last pulse, the repeating dimension is
not RISK, and the previous state is below 0.6. -/
theorem C6_pulse_guard :
    ∀ gs turn, postPulseGuard gs turn = true ↔ pulseClaimCond gs turn := by
  intro gs turn
  unfold postPulseGuard pulseClaimCond
  simp only [Bool.and_eq_true, decide_eq_true_eq, shouldExplorationPulse_iff]
  tauto

lemma mergeFragment_key (f : MemoryFragment) (incoming : IncomingFragment) :
    (mergeFragment f incoming).key = f.key := rfl

lemma merged_salience_ge {oldS newS : ℚ} (h0 : 0 ≤ newS) (h1 : oldS ≤ 1.2)
    (h2 : newS ≤ 1.2) : max oldS newS ≤ clamp 0 1.2 (max oldS newS + 0.08) := by
  have hm1 : max oldS newS ≤ 1.2 := max_le h1 h2
  calc max oldS newS ≤ min 1.2 (max oldS newS + 0.08) :=
        le_min hm1 (by linarith)
    _ ≤ clamp 0 1.2 (max oldS newS + 0.08) := le_max_right _ _

lemma upsertGo_merge (incoming : IncomingFragment) (freshId : String) :
    ∀ frags : List MemoryFragment,
      (frags.map (fun f => f.key)).Nodup →
      (∀ f ∈ frags, 0 ≤ f.salience ∧ f.salience ≤ 1.2) →
      0 ≤ incoming.salience → incoming.salience ≤ 1.2 →
      ∀ old ∈ frags, old.key = incoming.key →
        ((upsertGo incoming freshId frags).1.map (fun f => f.key) =
            frags.map (fun f => f.key)) ∧
        ∃ f ∈ (upsertGo incoming freshId frags).1,
          f.key = incoming.key ∧
          f.salience = clamp 0 1.2 (max old.salience incoming.salience + 0.08) ∧
          max old.salience incoming.salience ≤ f.salience := by
  intro frags
  induction frags with
  | nil =>
    intro _ _ _ _ old hold _
    exact absurd hold (List.not_mem_nil old)
  | cons f rest ih =>
    intro hkeys hsal hinc0 hinc1 old hold holdkey
    by_cases hk : f.key = incoming.key
    · have holdf : old = f := by
        rcases List.mem_cons.1 hold with h | h
        · exact h
        · exfalso
          have hmem : old.key ∈ rest.map (fun g => g.key) :=
            List.mem_map_of_mem _ h
          rw [holdkey, ← hk] at hmem
          exact (List.nodup_cons.1 hkeys).1 hmem
      subst holdf
      constructor
      · simp [upsertGo, if_pos hk, mergeFragment_key]
      · refine ⟨mergeFragment old incoming, ?_, ?_, rfl, ?_⟩
        · simp [upsertGo, if_pos hk]
        · rw [mergeFragment_key, hk]
        · exact merged_salience_ge hinc0 (hsal old hold).2 hinc1
    · have holdrest : old ∈ rest := by
        rcases List.mem_cons.1 hold with h | h
        · exact absurd (h ▸ holdkey) hk
        · exact h
      have hrec := ih (List.nodup_cons.1 hkeys).2
        (fun g hg => hsal g (List.mem_cons_of_mem f hg)) hinc0 hinc1 old holdrest holdkey
      constructor
      · simp only [upsertGo, if_neg hk, List.map_cons]
        rw [hrec.1]
      · rcases hrec.2 with ⟨g, hg, hgk, hgs, hgb⟩
        refine ⟨g, ?_, hgk, hgs, hgb⟩
        simp only [upsertGo, if_neg hk]
        exact List.mem_cons_of_mem f hg

/-- C7: on a fragment list with pairwise-distinct keys and saliences in
[0, 1.2], upserting an incoming fragment (salience in [0, 1.2]) whose key
already exists merges rather than inserts: the key multiset is unchanged (so
keys stay pairwise distinct and no duplicate key coexists), and the merged
fragment's salience equals clamp(0, 1.2, max(old, new) + 0.08), which is at
least the maximum of the existing and incoming saliences. -/
theorem C7_upsertFragment_merge
    (frags : List MemoryFragment) (incoming : IncomingFragment) (freshId : String)
    (hkeys : (frags.map (fun f => f.key)).Nodup)
    (hsal : ∀ f ∈ frags, 0 ≤ f.salience ∧ f.salience ≤ 1.2)
    (hinc0 : 0 ≤ incoming.salience) (hinc1 : incoming.salience ≤ 1.2)
    (old : MemoryFragment) (hold : old ∈ frags) (holdkey : old.key = incoming.key) :
    ((upsertFragment frags incoming freshId).1.map (fun f => f.key) =
        frags.map (fun f => f.key)) ∧
    ((upsertFragment frags incoming freshId).1.map (fun f => f.key)).Nodup ∧
    ∃ f ∈ (upsertFragment frags incoming freshId).1,
      f.key = incoming.key ∧
      f.salience = clamp 0 1.2 (max old.salience incoming.salience + 0.08) ∧
      max old.salience incoming.salience ≤ f.salience := by
  have h := upsertGo_merge incoming freshId frags hkeys hsal hinc0 hinc1 old hold holdkey
  exact ⟨h.1, by rw [show (upsertFragment frags incoming freshId).1 = (upsertGo incoming freshId frags).1 from rfl, h.1]; exact hkeys, h.2⟩

/-- Sample fragment used to witness C7. -/
def sampleFragment : MemoryFragment := ⟨"id1", "k", 0, none, none, "t", 0.5, -999⟩

/-- Sample incoming fragment (same key as sampleFragment) used to witness C7. -/
def sampleIncoming : IncomingFragment := ⟨"k", 1, none, none, "t2", 0.6⟩

/-- C7 witness: the merge behaviour at a concrete one-element fragment list. -/
theorem C7_upsertFragment_witness :
    ((upsertFragment [sampleFragment] sampleIncoming "id2").1.map (fun f => f.key) =
        [sampleFragment].map (fun f => f.key)) ∧
    ((upsertFragment [sampleFragment] sampleIncoming "id2").1.map (fun f => f.key)).Nodup ∧
    ∃ f ∈ (upsertFragment [sampleFragment] sampleIncoming "id2").1,
      f.key = sampleIncoming.key ∧
      f.salience = clamp 0 1.2 (max sampleFragment.salience sampleIncoming.salience + 0.08) ∧
      max sampleFragment.salience sampleIncoming.salience ≤ f.salience :=
  C7_upsertFragment_merge [sampleFragment] sampleIncoming "id2"
    (by simp)
    (by
      intro f hf
      rw [List.mem_singleton] at hf
      subst hf
      constructor <;> norm_num [sampleFragment])
    (by norm_num [sampleIncoming])
    (by norm_num [sampleIncoming])
    sampleFragment (List.mem_singleton.2 rfl) rfl

/-- C8: pruneFragments with cap 40 leaves at most 40 fragments, and no
remaining fragment has both salience < 0.06 and age (current turn minus
fragment turn) greater than 8. -/
theorem C8_pruneFragments :
    ∀ (frags : List MemoryFragment) (turn : ℤ),
      (pruneFragments frags turn 40).length ≤ 40 ∧
      ∀ f ∈ pruneFragments frags turn 40,
        ¬(f.salience < 0.06 ∧ 8 < turn - f.turn) := by
  intro frags turn
  constructor
  · exact List.length_take_le _ _
  · intro f hf
    have h1 := List.mem_of_mem_take hf
    rw [List.mem_mergeSort] at h1
    have h2 := (List.mem_filter.1 h1).2
    rintro ⟨hs, ht⟩
    simp only [Bool.not_eq_true', Bool.and_eq_false_iff, decide_eq_false_iff_not] at h2
    rcases h2 with h | h
    · exact h hs
    · exact h ht

lemma bindEntropy_eq_none {β : Type} (h : List TopTokenLogprob → β)
    (o : Option (List TopTokenLogprob)) :
    (o.bind (fun top => if top.isEmpty then none else some (h top))) = none ↔
      ∀ top, o = some top → top = [] := by
  cases o with
  | none => simp
  | some top =>
    cases top with
    | nil => simp
    | cons a l => simp

lemma averageOpt_eq_none (Hs : List ℝ) :
    (if Hs.isEmpty then (none : Option ℝ) else some (Hs.sum / (Hs.length : ℝ))) = none ↔
      Hs = [] := by
  rcases Hs with _ | ⟨a, l⟩
  · simp
  · simp

lemma foldl_entropy_sub :
    ∀ ps : List ℝ, (∀ p ∈ ps, 0 < p) → ∀ a : ℝ,
      ps.foldl (fun acc p => if 0 < p then acc - p * Real.log (p + (EPS : ℝ)) else acc) a =
        a - (ps.map (fun p => p * Real.log (p + (EPS : ℝ)))).sum := by
  intro ps
  induction ps with
  | nil =>
    intro _ a
    simp
  | cons p rest ih =>
    intro hpos a
    have hp : 0 < p := hpos p (List.mem_cons_self _ _)
    simp only [List.foldl_cons, List.map_cons, List.sum_cons]
    rw [if_pos hp, ih (fun q hq => hpos q (List.mem_cons_of_mem _ hq))]
    ring

lemma tokenEntropy_eq_amended (top : List TopTokenLogprob) :
    tokenEntropy top = tokenEntropyAmended top := by
  unfold tokenEntropy tokenEntropyAmended
  dsimp only
  have hpos : ∀ p ∈ top.map (fun x => Real.exp x.logprob), 0 < p := by
    intro p hp
    rcases List.mem_map.1 hp with ⟨x, -, rfl⟩
    exact Real.exp_pos _
  rw [foldl_entropy_sub _ hpos 0]
  split_ifs with hr <;> ring

/-- C9 (amended): approxEntropy returns None exactly when no token in the
slice carries a non-empty top-k alternatives list; otherwise it returns the
average, over the tokens that do, of H = -Σ p_i·ln(p_i + 1e-8) -
r·ln(r + 1e-8) with p_i = exp(logprob_i), r = max(0, 1 - Σ p_i), the r-term
present only when r > 0 (the code adds EPS = 1e-8 inside each logarithm; the
guard p_i > 0 of the source is vacuous since p_i = exp(·) > 0). -/
theorem C9_approxEntropy :
    ∀ tokens : List TokenLogprob,
      approxEntropy tokens = approxEntropyAmended tokens ∧
      (approxEntropy tokens = none ↔
        ∀ t ∈ tokens, ∀ top, t.top_logprobs = some top → top = []) := by
  intro tokens
  constructor
  · unfold approxEntropy approxEntropyAmended
    simp only [tokenEntropy_eq_amended]
  · unfold approxEntropy
    rw [averageOpt_eq_none, List.filterMap_eq_nil_iff]
    exact forall₂_congr (fun t ht => bindEntropy_eq_none _ _)

/-- C9 counterexample: a single token with logprob 0 and one alternative of
logprob 0. The claim's formula (no epsilon) gives entropy 0, but the code
computes -ln(1 + 1e-8) ≠ 0 because of the epsilon inside the logarithm. -/
theorem C9_counterexample :
    approxEntropySpec [⟨"a", 0, some [⟨"a", 0⟩]⟩] = some 0 ∧
    approxEntropy [⟨"a", 0, some [⟨"a", 0⟩]⟩] ≠ some 0 := by
  constructor
  · unfold approxEntropySpec tokenEntropySpec
    simp [Real.exp_zero, Real.log_one]
  · unfold approxEntropy tokenEntropy
    have hlog : 0 < Real.log (1 + (EPS : ℝ)) := by
      apply Real.log_pos
      have : (0 : ℝ) < (EPS : ℝ) := by
        rw [show ((EPS : ℚ) : ℝ) = ((1 : ℝ) / 100000000) by norm_num [EPS]]
        norm_num
      linarith
    simp [Real.exp_zero]
    norm_num [EPS]

lemma turnRawState_fresh_missing :
    turnRawState createInitialGateState none none = (0.3 : ℝ) := by
  unfold turnRawState createInitialGateState
  norm_num

/-- C3 counterexample: on a fresh session (last_state = 0.3) with both
metrics missing, a probe parsed as DIM=RISK does NOT leave the state at 0.3:
the RISK boost lifts the raw state to 0.478, which lies below the hysteresis
band, and the resolved state becomes 0.3712. -/
theorem C3_counterexample :
    turnFinalState createInitialGateState none none (some "RISK") ≠ (0.3 : ℝ) := by
  have happ : applyDimWeight (0.3 : ℝ) (some "RISK") createInitialGateState = 0.478 := by
    unfold applyDimWeight
    rw [if_pos rfl, if_neg (by simp)]
    rw [show clamp01 (0.3 : ℝ) = 0.3 from clamp01_eq_self (by norm_num) (by norm_num)]
    rw [show lerp (0.22 : ℝ) 0.08 0.3 = 0.178 by unfold lerp; norm_num]
    rw [show (0.3 : ℝ) + 0.178 = 0.478 by norm_num]
    exact clamp01_eq_self (by norm_num) (by norm_num)
  have hfinal : turnFinalState createInitialGateState none none (some "RISK") = 0.3712 := by
    unfold turnFinalState
    rw [turnRawState_fresh_missing, happ]
    unfold hysteresisUpdate
    rw [if_pos (Or.inr (by norm_num))]
    dsimp only
    rw [show (0.6 : ℝ) * ((createInitialGateState.last_state : ℚ) : ℝ) + (1 - 0.6) * 0.478 = 0.3712 by
      unfold createInitialGateState
      push_cast
      norm_num]
    exact clamp01_eq_self (by norm_num) (by norm_num)
  rw [hfinal]
  norm_num

/-- C3 (amended): on a fresh session whose first turn carries no token
logprobs (surprisal and entropy both unavailable), the resolved state equals
the initial default 0.3 for every parsed attention dimension EXCEPT RISK
(whose state-dependent boost moves the state to 0.3712). -/
theorem C3_fresh_session_missing_logprobs (dim : Option String)
    (hdim : dim ≠ some "RISK") :
    turnFinalState createInitialGateState none none dim = (0.3 : ℝ) := by
  have happ : applyDimWeight (0.3 : ℝ) dim createInitialGateState = 0.3 := by
    unfold applyDimWeight
    rw [if_neg hdim]
    by_cases hmeta : dim = some "META"
    · rw [if_pos hmeta]
      rw [show metaCapValue createInitialGateState.meta_cap_stage = some 0.55 from rfl]
      dsimp only
      rw [min_eq_left (by norm_num)]
    · rw [if_neg hmeta]
  unfold turnFinalState
  rw [turnRawState_fresh_missing, happ]
  unfold hysteresisUpdate
  rw [if_pos (Or.inr (by norm_num))]
  dsimp only
  rw [show (0.6 : ℝ) * ((createInitialGateState.last_state : ℚ) : ℝ) + (1 - 0.6) * 0.3 = 0.3 by
    unfold createInitialGateState
    push_cast
    norm_num]
  exact clamp01_eq_self (by norm_num) (by norm_num)

/-- C3 witness: with the dimension parsed as GOAL the fresh-session state
stays at 0.3. -/
theorem C3_fresh_session_witness :
    turnFinalState createInitialGateState none none (some "GOAL") = (0.3 : ℝ) :=
  C3_fresh_session_missing_logprobs (some "GOAL") (by simp)

lemma frag_items_base_nonneg (s : ℝ) : 0 ≤ frag_items_base s :=
  le_clamp 0 10 _

lemma frag_items_base_le (s : ℝ) : frag_items_base s ≤ 10 :=
  clamp_le (by norm_num) _

lemma frag_items_base_mono {s t : ℝ} (hst : s ≤ t) :
    frag_items_base s ≤ frag_items_base t :=
  clamp_mono _ _ (round_le_round (lerp_mono (by norm_num)
    (smoothstep_mono (by norm_num) hst)))

lemma frag_items_mono {s t : ℝ} (topSalience : ℝ) (hst : s ≤ t) :
    frag_items s topSalience ≤ frag_items t topSalience := by
  unfold frag_items
  by_cases hc1 : frag_items_base s = 0 ∧ topSalience > 0.9
  · rw [if_pos hc1]
    by_cases hc2 : frag_items_base t = 0 ∧ topSalience > 0.9
    · rw [if_pos hc2]
    · rw [if_neg hc2]
      have hbt : frag_items_base t ≠ 0 := fun h => hc2 ⟨h, hc1.2⟩
      have h0 := frag_items_base_nonneg t
      omega
  · rw [if_neg hc1]
    by_cases hc2 : frag_items_base t = 0 ∧ topSalience > 0.9
    · have hmono := frag_items_base_mono hst
      have h0 := frag_items_base_nonneg s
      have hzero : frag_items_base s = 0 := by omega
      exact absurd ⟨hzero, hc2.2⟩ hc1
    · rw [if_neg hc2]
      exact frag_items_base_mono hst

/-- C1: for states s ≤ t in [0, 1] (and any top fragment salience), every
budget of the Gradient Budget Mapper lies in its documented range — context
messages kept in [4, 18], summary chars in [0, 220], attention-log items in
[0, 10], fragment items in [0, 10], summary refresh interval in [1, 18],
summary refresh token budget in [20, 120], main response token budget in
[60, 520], sampling temperature in [0.05, 0.70] — and every budget is
monotone non-decreasing in the state except the summary refresh interval,
which is non-increasing. -/
theorem C1_gradientBudgetMapper (s t topSalience : ℝ)
    (hs0 : 0 ≤ s) (hs1 : s ≤ 1) (ht0 : 0 ≤ t) (ht1 : t ≤ 1) (hst : s ≤ t) :
    (4 ≤ ctx_keep_msgs s ∧ ctx_keep_msgs s ≤ 18) ∧
    (0 ≤ summary_chars s ∧ summary_chars s ≤ 220) ∧
    (0 ≤ attn_items s ∧ attn_items s ≤ 10) ∧
    (0 ≤ frag_items s topSalience ∧ frag_items s topSalience ≤ 10) ∧
    (1 ≤ summary_update_interval s ∧ summary_update_interval s ≤ 18) ∧
    (20 ≤ summary_update_max_tokens s ∧ summary_update_max_tokens s ≤ 120) ∧
    (60 ≤ max_output_tokens s ∧ max_output_tokens s ≤ 520) ∧
    (0.05 ≤ temperature s ∧ temperature s ≤ 0.7) ∧
    ctx_keep_msgs s ≤ ctx_keep_msgs t ∧
    summary_chars s ≤ summary_chars t ∧
    attn_items s ≤ attn_items t ∧
    frag_items s topSalience ≤ frag_items t topSalience ∧
    summary_update_interval t ≤ summary_update_interval s ∧
    summary_update_max_tokens s ≤ summary_update_max_tokens t ∧
    max_output_tokens s ≤ max_output_tokens t ∧
    temperature s ≤ temperature t := by
  have hsc : 0 ≤ summary_chars s ∧ summary_chars s ≤ 220 := by
    unfold summary_chars
    have hu := lerp_mem (by norm_num : (0 : ℝ) ≤ 220)
      (smoothstep_nonneg 0.22 0.62 s) (smoothstep_le_one 0.22 0.62 s)
    exact round_mem (by push_cast; exact hu.1) (by push_cast; exact hu.2)
  have hfr : 0 ≤ frag_items s topSalience ∧ frag_items s topSalience ≤ 10 := by
    unfold frag_items
    split_ifs with h
    · norm_num
    · exact ⟨frag_items_base_nonneg s, frag_items_base_le s⟩
  have hmo : 60 ≤ max_output_tokens s ∧ max_output_tokens s ≤ 520 := by
    unfold max_output_tokens
    have hu := lerp_mem (by norm_num : (60 : ℝ) ≤ 520) hs0 hs1
    exact round_mem (by push_cast; exact hu.1) (by push_cast; exact hu.2)
  have htp : 0.05 ≤ temperature s ∧ temperature s ≤ 0.7 := by
    unfold temperature
    have hu := lerp_mem (by norm_num : (0.05 : ℝ) ≤ 0.7) hs0 hs1
    rw [clamp_eq_self (by linarith [hu.1]) (by linarith [hu.2])]
    exact hu
  have m1 : ctx_keep_msgs s ≤ ctx_keep_msgs t :=
    clamp_mono _ _ (round_le_round (lerp_mono (by norm_num)
      (powEase_mono (by norm_num) hst)))
  have m2 : summary_chars s ≤ summary_chars t :=
    round_le_round (lerp_mono (by norm_num) (smoothstep_mono (by norm_num) hst))
  have m3 : attn_items s ≤ attn_items t :=
    clamp_mono _ _ (round_le_round (lerp_mono (by norm_num)
      (smoothstep_mono (by norm_num) hst)))
  have m5 : summary_update_interval t ≤ summary_update_interval s :=
    clamp_mono _ _ (round_le_round (lerp_anti (by norm_num)
      (powEase_mono (by norm_num) hst)))
  have m6 : summary_update_max_tokens s ≤ summary_update_max_tokens t :=
    clamp_mono _ _ (round_le_round (lerp_mono (by norm_num)
      (powEase_mono (by norm_num) hst)))
  have m7 : max_output_tokens s ≤ max_output_tokens t :=
    round_le_round (lerp_mono (by norm_num) hst)
  have m8 : temperature s ≤ temperature t :=
    clamp_mono _ _ (lerp_mono (by norm_num) hst)
  exact ⟨⟨le_clamp _ _ _, clamp_le (by norm_num) _⟩, hsc,
    ⟨le_clamp _ _ _, clamp_le (by norm_num) _⟩, hfr,
    ⟨le_clamp _ _ _, clamp_le (by norm_num) _⟩,
    ⟨le_clamp _ _ _, clamp_le (by norm_num) _⟩, hmo, htp,
    m1, m2, m3, frag_items_mono topSalience hst, m5, m6, m7, m8⟩

/-- C1 witness: the ranges and the monotonicity comparisons instantiated at
the concrete states s = 0 and t = 1 (top salience 0). -/
theorem C1_gradientBudgetMapper_witness :
    (4 ≤ ctx_keep_msgs 0 ∧ ctx_keep_msgs 0 ≤ 18) ∧
    (0 ≤ summary_chars 0 ∧ summary_chars 0 ≤ 220) ∧
    (0 ≤ attn_items 0 ∧ attn_items 0 ≤ 10) ∧
    (0 ≤ frag_items 0 0 ∧ frag_items 0 0 ≤ 10) ∧
    (1 ≤ summary_update_interval 0 ∧ summary_update_interval 0 ≤ 18) ∧
    (20 ≤ summary_update_max_tokens 0 ∧ summary_update_max_tokens 0 ≤ 120) ∧
    (60 ≤ max_output_tokens 0 ∧ max_output_tokens 0 ≤ 520) ∧
    (0.05 ≤ temperature 0 ∧ temperature 0 ≤ 0.7) ∧
    ctx_keep_msgs 0 ≤ ctx_keep_msgs 1 ∧
    summary_chars 0 ≤ summary_chars 1 ∧
    attn_items 0 ≤ attn_items 1 ∧
    frag_items 0 0 ≤ frag_items 1 0 ∧
    summary_update_interval 1 ≤ summary_update_interval 0 ∧
    summary_update_max_tokens 0 ≤ summary_update_max_tokens 1 ∧
    max_output_tokens 0 ≤ max_output_tokens 1 ∧
    temperature 0 ≤ temperature 1 :=
  C1_gradientBudgetMapper 0 1 0 le_rfl zero_le_one zero_le_one le_rfl zero_le_one
